import Mathlib

/-!
Verification development for the `rq` command-line HTTP tool
(`src/rq/src/lib.rs` of davemolk/rusty-bits).

The Rust code is shallowly embedded: every function of `lib.rs`
(`run`, `build_client`, `build_request`, `parse_method`, `add_headers`,
`add_headers_from_file`, `add_cookies`) becomes a Lean definition of the
same name.  Everything external to the repository — the filesystem,
`serde_json` parsing, `url::Url` / proxy validation, and the network —
is abstracted into an `Env` record of oracles, so the embedded functions
are deterministic functions of `Env` and the parsed CLI arguments.

Semantics of the external `http`/`reqwest` library types, which are not
part of this repository, are modelled from the spec's words:
`HeaderMap::insert` replaces any existing entry with the same
(case-sensitively compared) key; `basic_auth` / `bearer_auth` insert an
`authorization` header (the Base64 encoding of the Basic credentials is
kept symbolic); `RequestBuilder::multipart` replaces any previously set
body.
-/

namespace Rq

/-- HTTP methods.  `parse_method` only ever produces the six enumerated
ones; `EXT` stands for any other `reqwest::Method` value. -/
inductive Method where
  | GET
  | HEAD
  | POST
  | PUT
  | PATCH
  | DELETE
  | EXT (s : String)
deriving DecidableEq, Repr

/-- `serde_json::Value`.  The numeric payload is irrelevant to this code
and kept as an integer. -/
inductive Json where
  | null
  | bool (b : Bool)
  | num (n : Int)
  | str (s : String)
  | arr (elems : List Json)
  | obj (fields : List (String × Json))
deriving Repr

/-- `Value::as_object`: `some` exactly on JSON objects. -/
def Json.asObject : Json → Option (List (String × Json))
  | .obj fields => some fields
  | _ => none

/-- `Value::as_str`: `some` exactly on JSON strings. -/
def Json.asStr : Json → Option String
  | .str s => some s
  | _ => none

/-- A header value.  Inline and file headers carry plain text; the
`basic_auth` / `bearer_auth` builder helpers are kept symbolic instead of
computing `Basic base64(user:pass)` / `Bearer token` strings. -/
inductive HeaderVal where
  | plain (s : String)
  | basicAuth (user : String) (pw : Option String)
  | bearerAuth (token : String)
deriving DecidableEq, Repr

/-- A part of a `multipart::Form`. -/
inductive Part where
  | filePart (key : String) (path : String)
  | textPart (key : String) (value : String)
deriving DecidableEq, Repr

/-- A request body, as set by `RequestBuilder::body` / `::multipart`. -/
inductive Body where
  | text (s : String)
  | file (path : String)
  | multipartForm (parts : List Part)
deriving DecidableEq, Repr

/-- The oracles for everything outside the repository: `serde_json`
parsing, the filesystem, URL/proxy validation, and the single network
exchange performed by `client.execute`. -/
structure Env where
  /-- `serde_json::from_str` / `from_reader`: `none` on a parse failure. -/
  parseJson : String → Option Json
  /-- `Path::exists`. -/
  pathExists : String → Bool
  /-- `File::open` + read: `none` when the file cannot be opened. -/
  readFileString : String → Option String
  /-- `Url::parse` succeeds. -/
  urlValid : String → Bool
  /-- `reqwest::Proxy::all` succeeds. -/
  proxyValid : String → Bool
  /-- `client.execute` returns a response (no transport error). -/
  executeOk : Bool
  /-- `response.status().is_success()`. -/
  responseStatusSuccess : Bool
  /-- the response body text. -/
  responseBody : String
  /-- `fs::File::create` on the download path succeeds. -/
  createFileOk : Bool

/-- The parsed CLI arguments (`struct Args`), field for field. -/
structure Args where
  url : String
  method : Method
  basic : Option String
  bearer : Option String
  data : Option String
  form : Option String
  verbose : Bool
  debug : Bool
  timeout_seconds : Option Nat
  headers : Option (List String)
  cookies : Option String
  proxy : Option String
  /-- set by the `--no-redirects` flag ("don't follow redirects"). -/
  redirects : Bool
  http2 : Bool
  user_agent : Option String
  download : Option String
  pretty_print : Bool

def USER_AGENT_DEFAULT : String := "github.com/davemolk/rusty-bits/rq"

/-- `reqwest::redirect::Policy`: the builder default follows up to 10
redirects; `Policy::none()` never follows one. -/
inductive RedirectPolicy where
  | followDefault
  | noFollow
deriving DecidableEq, Repr

/-- The transport configuration assembled by `build_client`. -/
structure Client where
  user_agent : String
  redirect_policy : RedirectPolicy
  http2_prior_knowledge : Bool
  proxy : Option String
deriving DecidableEq, Repr

/-- `build_client` (`lib.rs:170-193`): user-agent default, redirect
policy (`if !args.redirects { Policy::none() }`), HTTP/2 prior
knowledge, proxy. -/
def build_client (env : Env) (args : Args) : Except String Client := do
  let ua := match args.user_agent with
    | some ua => ua
    | none => USER_AGENT_DEFAULT
  let policy := if !args.redirects then RedirectPolicy.noFollow else RedirectPolicy.followDefault
  let proxy ← match args.proxy with
    | some p =>
      if env.proxyValid p then Except.ok (some p)
      else Except.error ("invalid proxy: " ++ p)
    | none => Except.ok none
  Except.ok { user_agent := ua, redirect_policy := policy,
              http2_prior_knowledge := args.http2, proxy := proxy }

/-- `str::to_uppercase`, restricted to its ASCII behaviour (sufficient
for the six recognized method tokens). -/
def toUppercase (s : String) : String := String.mk (s.data.map Char.toUpper)

/-- `parse_method` (`lib.rs:269-280`): uppercase the token, map the six
known methods, anything else falls back to `GET`; always `Ok`. -/
def parse_method (method : String) : Except String Method :=
  let m := toUppercase method
  Except.ok
    (if m = "GET" then Method.GET
     else if m = "HEAD" then Method.HEAD
     else if m = "POST" then Method.POST
     else if m = "PUT" then Method.PUT
     else if m = "PATCH" then Method.PATCH
     else if m = "DELETE" then Method.DELETE
     else Method.GET)

/-- `str::split(sep)` on a character list: splits at every occurrence
of `sep`; the empty input gives one empty group, `n` separators give
`n + 1` groups. -/
def splitChar (sep : Char) : List Char → List (List Char)
  | [] => [[]]
  | c :: rest =>
    if c = sep then [] :: splitChar sep rest
    else
      match splitChar sep rest with
      | [] => [[c]]
      | g :: gs => (c :: g) :: gs

/-- `str::split(sep).collect::<Vec<_>>()` as strings. -/
def splitOnChar (sep : Char) (s : String) : List String :=
  (splitChar sep s.data).map String.mk

/-- `str::starts_with(c)`. -/
def startsWithChar (c : Char) (s : String) : Bool :=
  match s.data with
  | [] => false
  | c0 :: _ => c0 = c

/-- `String::split_off(1)` (equivalently `split_at(1).1`) for a string
whose first character is the one-byte `'@'`: the text after it. -/
def dropFirstChar (s : String) : String := String.mk s.data.tail

/-- `http::HeaderMap::insert`, modelled from the spec: replaces any
existing entry with the same key (exact, case-sensitive string match)
and records the new value. -/
def insertHeader (m : List (String × HeaderVal)) (k : String) (v : HeaderVal) :
    List (String × HeaderVal) :=
  (m.filter fun kv => kv.1 ≠ k) ++ [(k, v)]

/-- Lookup in the modelled `HeaderMap` (first entry with the key). -/
def getHeader (m : List (String × HeaderVal)) (k : String) : Option HeaderVal :=
  match m with
  | [] => none
  | kv :: rest => if kv.1 = k then some kv.2 else getHeader rest k

/-- The body of the header-file loop (`lib.rs:309-316`): a string-valued
field is inserted as a header, a non-string value is an error. -/
def fileHeaderStep (hs : List (String × HeaderVal)) (kv : String × Json) :
    Except String (List (String × HeaderVal)) :=
  match kv.2.asStr with
  | some v => Except.ok (insertHeader hs kv.1 (HeaderVal.plain v))
  | none => Except.error "not a proper header value"

/-- `add_headers_from_file` (`lib.rs:304-319`): open the file, parse its
contents as JSON; if the value is an object, insert each string-valued
field as a header (a non-string value is an error); a non-object value
adds nothing. -/
def add_headers_from_file (env : Env) (headers : List (String × HeaderVal))
    (path : String) : Except String (List (String × HeaderVal)) :=
  match env.readFileString path with
  | none => Except.error ("failed to open header file: " ++ path)
  | some contents =>
    match env.parseJson contents with
    | none => Except.error ("bad json format from header file: " ++ path)
    | some header_json =>
      match header_json.asObject with
      | some json_obj => json_obj.foldlM fileHeaderStep headers
      | none => Except.ok headers

/-- The body of the `add_headers` loop (`lib.rs:285-299`): `@path` loads
a header file, otherwise `split('=')` must give exactly two parts
(`Key=Value`), anything else is `malformed header`. -/
def addHeaderStep (env : Env) (header_map : List (String × HeaderVal))
    (header : String) : Except String (List (String × HeaderVal)) :=
  if startsWithChar '@' header then
    add_headers_from_file env header_map (dropFirstChar header)
  else
    match splitOnChar '=' header with
    | [k, v] => Except.ok (insertHeader header_map k (HeaderVal.plain v))
    | parts => Except.error ("malformed header: " ++ toString parts)

/-- `add_headers` (`lib.rs:282-302`): left fold of `addHeaderStep` over
the `-H` strings, starting from the empty map. -/
def add_headers (env : Env) (headers_to_add : Option (List String)) :
    Except String (List (String × HeaderVal)) :=
  match headers_to_add with
  | none => Except.ok []
  | some headers => headers.foldlM (addHeaderStep env) []

/-- `add_cookies` (`lib.rs:321-332`): `@path` uses the raw file text as
the `cookie` header value, otherwise the string itself, verbatim. -/
def add_cookies (env : Env) (cookies : String) :
    Except String (List (String × HeaderVal)) :=
  if startsWithChar '@' cookies then
    match env.readFileString (dropFirstChar cookies) with
    | some file_cookies => Except.ok [("cookie", HeaderVal.plain file_cookies)]
    | none => Except.error "failed to read cookie file"
  else
    Except.ok [("cookie", HeaderVal.plain cookies)]

/-- The state accumulated by `reqwest::blocking::RequestBuilder`. -/
structure RequestBuilder where
  method : Method
  url : String
  headers : List (String × HeaderVal)
  timeout : Option Nat
  body : Option Body
deriving DecidableEq, Repr

/-- The immutable `Request` produced by `RequestBuilder::build`. -/
structure Request where
  method : Method
  url : String
  headers : List (String × HeaderVal)
  timeout : Option Nat
  body : Option Body
deriving DecidableEq, Repr

/-- `client.get(url)` / `.head` / `.post` / … — the initial builder for
the matched method; the `_ => client.get(url)` arm sends any
non-enumerated method to `GET`. -/
def initBuilder (args : Args) : RequestBuilder :=
  let m := match args.method with
    | Method.EXT _ => Method.GET
    | m0 => m0
  { method := m, url := args.url, headers := [], timeout := none, body := none }

/-- `RequestBuilder::headers`: merge a header map into the builder,
inserting each entry in order. -/
def applyHeaders (b : RequestBuilder) (hs : List (String × HeaderVal)) : RequestBuilder :=
  { b with headers := hs.foldl (fun m kv => insertHeader m kv.1 kv.2) b.headers }

/-- `RequestBuilder::basic_auth`: inserts the `authorization` header. -/
def basic_auth (b : RequestBuilder) (user : String) (pw : Option String) : RequestBuilder :=
  { b with headers := insertHeader b.headers "authorization" (HeaderVal.basicAuth user pw) }

/-- `RequestBuilder::bearer_auth`: inserts the `authorization` header. -/
def bearer_auth (b : RequestBuilder) (token : String) : RequestBuilder :=
  { b with headers := insertHeader b.headers "authorization" (HeaderVal.bearerAuth token) }

/-- The cookie block of `build_request` (`lib.rs:212-215`). -/
def apply_cookies (env : Env) (args : Args) (b : RequestBuilder) :
    Except String RequestBuilder :=
  match args.cookies with
  | some cookies => do
    let cookie_header ← add_cookies env cookies
    Except.ok (applyHeaders b cookie_header)
  | none => Except.ok b

/-- The basic-auth block of `build_request` (`lib.rs:217-223`):
`basic.split(':')` must give at least two parts; parts `[0]` and `[1]`
become user and password. -/
def apply_basic (args : Args) (b : RequestBuilder) : Except String RequestBuilder :=
  match args.basic with
  | some basic =>
    let user_pw := splitOnChar ':' basic
    if user_pw.length < 2 then Except.error ("malformed basic auth: " ++ basic)
    else Except.ok (basic_auth b (user_pw.getD 0 "") (some (user_pw.getD 1 "")))
  | none => Except.ok b

/-- The bearer-auth block of `build_request` (`lib.rs:225-227`). -/
def apply_bearer (args : Args) (b : RequestBuilder) : RequestBuilder :=
  match args.bearer with
  | some bearer => bearer_auth b bearer
  | none => b

/-- The timeout block of `build_request` (`lib.rs:229-231`). -/
def apply_timeout (args : Args) (b : RequestBuilder) : RequestBuilder :=
  match args.timeout_seconds with
  | some t => { b with timeout := some t }
  | none => b

/-- The data block of `build_request` (`lib.rs:233-242`): `@path`
streams the opened file as the body (failure to open is an error),
otherwise the literal string is the body. -/
def apply_data (env : Env) (args : Args) (b : RequestBuilder) :
    Except String RequestBuilder :=
  match args.data with
  | some d =>
    if startsWithChar '@' d then
      match env.readFileString (dropFirstChar d) with
      | some _ => Except.ok { b with body := some (Body.file (dropFirstChar d)) }
      | none => Except.error ("failed to open " ++ dropFirstChar d)
    else Except.ok { b with body := some (Body.text d) }
  | none => Except.ok b

/-- The multipart-building loop of the form block of `build_request`
(`lib.rs:249-261`): if the parsed value is an object, each string-valued
field becomes a file part when the string is an existing path and a text
part otherwise, while non-string values are skipped; a non-object value
gives the empty form.  `Form::file` (the `?` at `lib.rs:255`) is
modelled as succeeding on an existing path. -/
def formFromJson (env : Env) (form_json : Json) : Except String (List Part) :=
  match form_json.asObject with
  | some object =>
    object.foldlM (fun (f : List Part) kv =>
      match kv.2.asStr with
      | some form_value =>
        if env.pathExists form_value then
          Except.ok (f ++ [Part.filePart kv.1 form_value])
        else
          Except.ok (f ++ [Part.textPart kv.1 form_value])
      | none => Except.ok f) ([] : List Part)
  | none => Except.ok ([] : List Part)

/-- The form block of `build_request` (`lib.rs:245-263`): parse the form
string as JSON (failure is an error), build the multipart form with
`formFromJson`, and set it as the body. -/
def apply_form (env : Env) (args : Args) (b : RequestBuilder) :
    Except String RequestBuilder :=
  match args.form with
  | some form_data =>
    match env.parseJson form_data with
    | some form_json =>
      match formFromJson env form_json with
      | Except.ok form => Except.ok { b with body := some (Body.multipartForm form) }
      | Except.error e => Except.error e
    | none => Except.error ("bad form data: " ++ form_data)
  | none => Except.ok b

/-- `RequestBuilder::build`. -/
def buildFinal (b : RequestBuilder) : Request :=
  { method := b.method, url := b.url, headers := b.headers,
    timeout := b.timeout, body := b.body }

/-- `build_request` (`lib.rs:195-267`): URL parse, method dispatch, then
headers, cookies, basic auth, bearer auth, timeout, data body and
multipart form, in that order; fail-fast on the first error. -/
def build_request (env : Env) (args : Args) : Except String Request :=
  if env.urlValid args.url = false then
    Except.error (args.url ++ " cannot be parsed as url")
  else do
    let hs ← add_headers env args.headers
    let b1 := applyHeaders (initBuilder args) hs
    let b2 ← apply_cookies env args b1
    let b3 ← apply_basic args b2
    let b4 := apply_bearer args b3
    let b5 := apply_timeout args b4
    let b6 ← apply_data env args b5
    let b7 ← apply_form env args b6
    Except.ok (buildFinal b7)

/-- One line of terminal output of `run`, kept symbolic (the claims are
about which lines are produced, not their formatting). -/
inductive OutEvent where
  | versionLine
  | urlLine (u : String)
  | methodLine (m : Method)
  | headerLine (k : String) (v : HeaderVal)
  | timeoutLine (t : Nat)
  | blankLine
  | statusNotice
  | responseMeta
  | downloadNotice
  | prettyJson (j : Json)
  | rawBody (s : String)
  | rawBodyDebugFmt (s : String)
deriving Repr

/-- The observable outcome of a successful `run`: the ordered terminal
output and whether `client.execute` was reached. -/
structure RunResult where
  output : List OutEvent
  networkCalled : Bool
deriving Repr

/-- The pre-send diagnostic dump printed by `run` when `verbose` or
`debug` is set (`lib.rs:119-130`): version, URL, method, every header,
the timeout when present, then a blank line. -/
def requestDump (req : Request) : List OutEvent :=
  [OutEvent.versionLine, OutEvent.urlLine req.url, OutEvent.methodLine req.method]
    ++ req.headers.map (fun kv => OutEvent.headerLine kv.1 kv.2)
    ++ (match req.timeout with
        | some t => [OutEvent.timeoutLine t]
        | none => [])
    ++ [OutEvent.blankLine]

/-- `serde_json::to_string_pretty` applied to an already parsed
`Value`: serializing a `Value` cannot fail, so this is total; the `Err`
fallback arm in `run` is preserved below but unreachable.  The indented
text itself is kept symbolic. -/
def to_string_pretty (json_res : Json) : Except String Json :=
  Except.ok json_res

/-- `run` (`lib.rs:115-168`): build client and request; print the
diagnostic dump when `verbose` or `debug`; in debug mode return before
any network call; otherwise execute, report a non-success status, print
response metadata when `verbose`, then either download to a file,
pretty-print the body as JSON (`serde_json::from_reader(&mut data)?` —
a parse failure propagates), or print the raw body. -/
def run (env : Env) (args : Args) : Except String RunResult := do
  let _client ← build_client env args
  let req ← build_request env args
  let dump := if args.verbose || args.debug then requestDump req else []
  if args.debug then
    Except.ok { output := dump, networkCalled := false }
  else if env.executeOk = false then
    Except.error "transport error"
  else
    let statusOut := if env.responseStatusSuccess = false then [OutEvent.statusNotice] else []
    let verboseOut := if args.verbose then [OutEvent.responseMeta] else []
    let out := dump ++ statusOut ++ verboseOut
    match args.download with
    | some _download_path =>
      if env.createFileOk = false then Except.error "failed to create download file"
      else Except.ok { output := out ++ [OutEvent.downloadNotice], networkCalled := true }
    | none =>
      if args.pretty_print then
        match env.parseJson env.responseBody with
        | some json_res =>
          match to_string_pretty json_res with
          | Except.ok pp =>
            Except.ok { output := out ++ [OutEvent.prettyJson pp], networkCalled := true }
          | Except.error _ =>
            Except.ok { output := out ++ [OutEvent.rawBodyDebugFmt env.responseBody],
                        networkCalled := true }
        | none => Except.error ("invalid json: " ++ env.responseBody)
      else
        Except.ok { output := out ++ [OutEvent.rawBody env.responseBody], networkCalled := true }

/-! ### Fixtures for concrete evaluations -/

/-- `Args::default()` (all flags absent, empty URL, method `GET`). -/
def argsDefault : Args :=
  { url := "", method := Method.GET, basic := none, bearer := none,
    data := none, form := none, verbose := false, debug := false,
    timeout_seconds := none, headers := none, cookies := none,
    proxy := none, redirects := false, http2 := false,
    user_agent := none, download := none, pretty_print := false }

/-- A minimal world: every URL parses, nothing else exists, the single
exchange succeeds with an empty body. -/
def envBase : Env :=
  { parseJson := fun _ => none, pathExists := fun _ => false,
    readFileString := fun _ => none, urlValid := fun _ => true,
    proxyValid := fun _ => false, executeOk := true,
    responseStatusSuccess := true, responseBody := "", createFileOk := true }

/-! ### Generic lemmas about the embedding -/

/-- Success of an `Except.bind` chain factors through the first step. -/
theorem bindOkIff {α β : Type} (x : Except String α) (f : α → Except String β)
    (b : β) : (x >>= f) = Except.ok b ↔ ∃ a, x = Except.ok a ∧ f a = Except.ok b := by
  cases x with
  | ok a =>
    simp only [Bind.bind, Except.bind]
    constructor
    · intro h; exact ⟨a, rfl, h⟩
    · rintro ⟨a', ha', hf⟩
      cases ha'
      exact hf
  | error e =>
    simp only [Bind.bind, Except.bind]
    constructor
    · intro h; cases h
    · rintro ⟨a', ha', _⟩; cases ha'

/-- Looking up the key just inserted finds the new value. -/
theorem getHeader_insert_self (m : List (String × HeaderVal)) (k : String)
    (v : HeaderVal) : getHeader (insertHeader m k v) k = some v := by
  unfold insertHeader
  induction m with
  | nil => simp [getHeader]
  | cons kv rest ih =>
    by_cases hk : kv.1 = k
    · simpa [List.filter_cons, hk] using ih
    · simpa [List.filter_cons, hk, getHeader] using ih

/-- Looking up a different key is unaffected by an insertion. -/
theorem getHeader_insert_other (m : List (String × HeaderVal)) (k k' : String)
    (v : HeaderVal) (hne : k' ≠ k) :
    getHeader (insertHeader m k v) k' = getHeader m k' := by
  unfold insertHeader
  induction m with
  | nil => simp [getHeader, Ne.symm hne]
  | cons kv rest ih =>
    by_cases hk : kv.1 = k
    · have hk' : kv.1 ≠ k' := by
        intro h; exact hne (h ▸ hk)
      simpa [List.filter_cons, hk, getHeader, hk', Ne.symm hne] using ih
    · by_cases hk' : kv.1 = k'
      · simp [List.filter_cons, hk, getHeader, hk', hne]
      · simpa [List.filter_cons, hk, getHeader, hk'] using ih

/-- `apply_timeout` never touches the header map. -/
theorem apply_timeout_headers (args : Args) (b : RequestBuilder) :
    (apply_timeout args b).headers = b.headers := by
  unfold apply_timeout
  cases args.timeout_seconds <;> rfl

/-- `buildFinal` copies the header map. -/
theorem buildFinal_headers (b : RequestBuilder) :
    (buildFinal b).headers = b.headers := rfl

/-- `apply_data` never touches the header map. -/
theorem apply_data_headers (env : Env) (args : Args) (b b' : RequestBuilder)
    (h : apply_data env args b = Except.ok b') : b'.headers = b.headers := by
  unfold apply_data at h
  cases hd : args.data with
  | none => simp only [hd] at h; injection h with h; subst h; rfl
  | some d =>
    simp only [hd] at h
    by_cases hsw : startsWithChar '@' d = true
    · rw [if_pos hsw] at h
      cases hrf : env.readFileString (dropFirstChar d) with
      | some c => simp only [hrf] at h; injection h with h; subst h; rfl
      | none => simp only [hrf] at h; exact Except.noConfusion h
    · rw [if_neg hsw] at h
      injection h with h; subst h; rfl

/-- `apply_form` never touches the header map. -/
theorem apply_form_headers (env : Env) (args : Args) (b b' : RequestBuilder)
    (h : apply_form env args b = Except.ok b') : b'.headers = b.headers := by
  unfold apply_form at h
  cases hf : args.form with
  | none => simp only [hf] at h; injection h with h; subst h; rfl
  | some fd =>
    simp only [hf] at h
    cases hj : env.parseJson fd with
    | none => simp only [hj] at h; exact Except.noConfusion h
    | some j =>
      simp only [hj] at h
      cases hfj : formFromJson env j with
      | error e => simp only [hfj] at h; exact Except.noConfusion h
      | ok form => simp only [hfj] at h; injection h with h; subst h; rfl

/-- The parts the form loop produces, written as the spec describes
them: every string-valued field in order — a file part when the string
is an existing path, a text part otherwise — with non-string fields
skipped. -/
def formPartsSpec (env : Env) (fields : List (String × Json)) : List Part :=
  fields.filterMap (fun kv =>
    match kv.2.asStr with
    | some v =>
      some (if env.pathExists v then Part.filePart kv.1 v else Part.textPart kv.1 v)
    | none => none)

/-- The form fold never fails and appends `formPartsSpec` to its
accumulator. -/
theorem formFold_eq (env : Env) (fields : List (String × Json)) (acc : List Part) :
    (fields.foldlM (fun (f : List Part) kv =>
      match kv.2.asStr with
      | some form_value =>
        if env.pathExists form_value then
          Except.ok (f ++ [Part.filePart kv.1 form_value])
        else
          Except.ok (f ++ [Part.textPart kv.1 form_value])
      | none => Except.ok f) acc : Except String (List Part))
      = Except.ok (acc ++ formPartsSpec env fields) := by
  induction fields generalizing acc with
  | nil => simp [formPartsSpec, List.foldlM, Pure.pure, Except.pure]
  | cons kv rest ih =>
    cases hstr : kv.2.asStr with
    | none =>
      simpa [List.foldlM, hstr, formPartsSpec, List.filterMap_cons,
        Bind.bind, Except.bind] using ih acc
    | some v =>
      by_cases hex : env.pathExists v = true
      · simp only [List.foldlM, hstr, hex, if_true, Bind.bind, Except.bind]
        simpa [formPartsSpec, List.filterMap_cons, hstr, hex] using
          ih (acc ++ [Part.filePart kv.1 v])
      · simp only [List.foldlM, hstr, hex, if_false, Bind.bind, Except.bind]
        simpa [formPartsSpec, List.filterMap_cons, hstr, hex] using
          ih (acc ++ [Part.textPart kv.1 v])

/-- On a JSON object, `formFromJson` succeeds with exactly the parts
described by `formPartsSpec`. -/
theorem formFromJson_obj (env : Env) (fields : List (String × Json)) :
    formFromJson env (Json.obj fields) = Except.ok (formPartsSpec env fields) := by
  unfold formFromJson
  simpa [Json.asObject] using formFold_eq env fields []

/-- A non-object JSON value gives the empty multipart form. -/
theorem formFromJson_nonObject (env : Env) (j : Json) (h : j.asObject = none) :
    formFromJson env j = Except.ok [] := by
  unfold formFromJson
  simp [h]

/-- When the form string parses and the form loop yields `ps`, a
successfully built request has body `multipartForm ps` — whatever body
earlier steps had set. -/
theorem build_request_body_of_form (env : Env) (args : Args) (fd : String)
    (jf : Json) (hf : args.form = some fd)
    (hjson : env.parseJson fd = some jf)
    (ps : List Part) (hps : formFromJson env jf = Except.ok ps)
    (req : Request) (hr : build_request env args = Except.ok req) :
    req.body = some (Body.multipartForm ps) := by
  unfold build_request at hr
  by_cases hurl : env.urlValid args.url = false
  · rw [if_pos hurl] at hr
    cases hr
  · rw [if_neg hurl] at hr
    simp only [bindOkIff] at hr
    obtain ⟨hs, hhs, hr⟩ := hr
    obtain ⟨b2, hb2, hr⟩ := hr
    obtain ⟨b3, hb3, hr⟩ := hr
    obtain ⟨b6, hb6, hr⟩ := hr
    obtain ⟨b7, hb7, hr⟩ := hr
    injection hr with hr
    subst hr
    unfold apply_form at hb7
    simp only [hf, hjson, hps] at hb7
    injection hb7 with hb7
    subst hb7
    rfl

/-- When the form string does not parse as JSON, `build_request` never
succeeds. -/
theorem build_request_form_parse_failure (env : Env) (args : Args) (fd : String)
    (hf : args.form = some fd) (hjson : env.parseJson fd = none)
    (r : Request) : build_request env args ≠ Except.ok r := by
  intro hr
  unfold build_request at hr
  by_cases hurl : env.urlValid args.url = false
  · rw [if_pos hurl] at hr
    cases hr
  · rw [if_neg hurl] at hr
    simp only [bindOkIff] at hr
    obtain ⟨hs, hhs, hr⟩ := hr
    obtain ⟨b2, hb2, hr⟩ := hr
    obtain ⟨b3, hb3, hr⟩ := hr
    obtain ⟨b6, hb6, hr⟩ := hr
    obtain ⟨b7, hb7, hr⟩ := hr
    unfold apply_form at hb7
    simp only [hf, hjson] at hb7
    exact Except.noConfusion hb7

/-- The value of the last occurrence of a key in an ordered insertion
sequence (`none` when the key never occurs). -/
def lastValue (ps : List (String × HeaderVal)) (k : String) : Option HeaderVal :=
  getHeader ps.reverse k

/-- Spec-side counterpart of `fileHeaderStep`: record the insertion
instead of performing it. -/
def filePairStep (ps : List (String × HeaderVal)) (kv : String × Json) :
    Except String (List (String × HeaderVal)) :=
  match kv.2.asStr with
  | some v => Except.ok (ps ++ [(kv.1, HeaderVal.plain v)])
  | none => Except.error "not a proper header value"

/-- The ordered insertions a header file contributes. -/
def filePairs (env : Env) (path : String) :
    Except String (List (String × HeaderVal)) :=
  match env.readFileString path with
  | none => Except.error ("failed to open header file: " ++ path)
  | some contents =>
    match env.parseJson contents with
    | none => Except.error ("bad json format from header file: " ++ path)
    | some header_json =>
      match header_json.asObject with
      | some json_obj => json_obj.foldlM filePairStep []
      | none => Except.ok []

/-- Spec-side counterpart of `addHeaderStep`: record the insertions a
`-H` string performs, flattening file references. -/
def pairStep (env : Env) (ps : List (String × HeaderVal)) (header : String) :
    Except String (List (String × HeaderVal)) :=
  if startsWithChar '@' header then
    Except.map (fun fps => ps ++ fps) (filePairs env (dropFirstChar header))
  else
    match splitOnChar '=' header with
    | [k, v] => Except.ok (ps ++ [(k, HeaderVal.plain v)])
    | parts => Except.error ("malformed header: " ++ toString parts)

/-- The full ordered insertion sequence of a header list, written as the
spec describes the processing: declared order, file references expanded
in place. -/
def headerPairs (env : Env) (headers : List String) :
    Except String (List (String × HeaderVal)) :=
  headers.foldlM (pairStep env) []

/-- Inserting `(k, v)` into a map tracked by an insertion sequence
keeps the map tracked by the extended sequence. -/
theorem inv_insert (m ps : List (String × HeaderVal)) (k : String)
    (v : HeaderVal) (inv : ∀ q, getHeader m q = lastValue ps q) (q : String) :
    getHeader (insertHeader m k v) q = lastValue (ps ++ [(k, v)]) q := by
  unfold lastValue
  rw [List.reverse_append]
  simp only [List.reverse_cons, List.reverse_nil, List.nil_append,
    List.singleton_append]
  by_cases hk : q = k
  · subst hk
    rw [getHeader_insert_self]
    simp [getHeader]
  · rw [getHeader_insert_other m k q v hk]
    have hq := inv q
    unfold lastValue at hq
    rw [hq]
    simp [getHeader, Ne.symm hk]

/-- The pair fold only appends: folding from `acc` is folding from `[]`
with `acc` prepended. -/
theorem filePairsFold_append (obj : List (String × Json))
    (acc : List (String × HeaderVal)) :
    obj.foldlM filePairStep acc
      = Except.map (fun fps => acc ++ fps) (obj.foldlM filePairStep []) := by
  induction obj generalizing acc with
  | nil => simp [List.foldlM, Pure.pure, Except.pure, Except.map]
  | cons kv rest ih =>
    cases hstr : kv.2.asStr with
    | none =>
      simp [List.foldlM, filePairStep, hstr, Bind.bind, Except.bind, Except.map]
    | some v =>
      simp only [List.foldlM, filePairStep, hstr, Bind.bind, Except.bind,
        List.nil_append]
      rw [ih (acc ++ [(kv.1, HeaderVal.plain v)]), ih [(kv.1, HeaderVal.plain v)]]
      cases hrest : rest.foldlM filePairStep [] with
      | error e => simp [Except.map]
      | ok fps => simp [Except.map, List.append_assoc]

/-- Simulation for the header-file loop: a successful insert fold is
tracked by the corresponding pair fold. -/
theorem fileFold_inv (obj : List (String × Json))
    (m₀ ps₀ : List (String × HeaderVal))
    (inv : ∀ q, getHeader m₀ q = lastValue ps₀ q)
    (m : List (String × HeaderVal))
    (hm : obj.foldlM fileHeaderStep m₀ = Except.ok m) :
    ∃ ps, obj.foldlM filePairStep ps₀ = Except.ok ps ∧
      ∀ q, getHeader m q = lastValue ps q := by
  induction obj generalizing m₀ ps₀ with
  | nil =>
    simp only [List.foldlM, Pure.pure, Except.pure] at hm
    injection hm with hm
    subst hm
    exact ⟨ps₀, by simp [List.foldlM, Pure.pure, Except.pure], inv⟩
  | cons kv rest ih =>
    cases hstr : kv.2.asStr with
    | none =>
      simp only [List.foldlM, fileHeaderStep, hstr, Bind.bind, Except.bind] at hm
      exact Except.noConfusion hm
    | some v =>
      simp only [List.foldlM, fileHeaderStep, hstr, Bind.bind, Except.bind] at hm
      obtain ⟨ps, hps, hinv⟩ := ih (insertHeader m₀ kv.1 (HeaderVal.plain v))
        (ps₀ ++ [(kv.1, HeaderVal.plain v)])
        (inv_insert m₀ ps₀ kv.1 (HeaderVal.plain v) inv) hm
      refine ⟨ps, ?_, hinv⟩
      simp [List.foldlM, filePairStep, hstr, Bind.bind, Except.bind, hps]

/-- Simulation for a whole header file: a successful
`add_headers_from_file` is tracked by appending its `filePairs`. -/
theorem add_headers_from_file_pairs (env : Env) (path : String)
    (m₀ ps₀ : List (String × HeaderVal))
    (inv : ∀ q, getHeader m₀ q = lastValue ps₀ q)
    (m : List (String × HeaderVal))
    (hm : add_headers_from_file env m₀ path = Except.ok m) :
    ∃ fps, filePairs env path = Except.ok fps ∧
      ∀ q, getHeader m q = lastValue (ps₀ ++ fps) q := by
  unfold add_headers_from_file at hm
  cases hread : env.readFileString path with
  | none => simp only [hread] at hm; exact Except.noConfusion hm
  | some contents =>
    simp only [hread] at hm
    cases hparse : env.parseJson contents with
    | none => simp only [hparse] at hm; exact Except.noConfusion hm
    | some j =>
      simp only [hparse] at hm
      cases hobj : j.asObject with
      | none =>
        simp only [hobj] at hm
        injection hm with hm
        subst hm
        refine ⟨[], by simp [filePairs, hread, hparse, hobj], ?_⟩
        simpa using inv
      | some obj =>
        simp only [hobj] at hm
        obtain ⟨ps, hps, hinv⟩ := fileFold_inv obj m₀ ps₀ inv m hm
        rw [filePairsFold_append obj ps₀] at hps
        cases hfold : obj.foldlM filePairStep [] with
        | error e => rw [hfold] at hps; exact Except.noConfusion hps
        | ok fps =>
          rw [hfold] at hps
          simp only [Except.map, Except.ok.injEq] at hps
          subst hps
          exact ⟨fps, by simp [filePairs, hread, hparse, hobj, hfold], hinv⟩

/-- Simulation for the whole header list: a successful `addHeaderStep`
fold is tracked by the corresponding `pairStep` fold. -/
theorem headersFold_inv (env : Env) (headers : List String)
    (m₀ ps₀ : List (String × HeaderVal))
    (inv : ∀ q, getHeader m₀ q = lastValue ps₀ q)
    (m : List (String × HeaderVal))
    (hm : headers.foldlM (addHeaderStep env) m₀ = Except.ok m) :
    ∃ ps, headers.foldlM (pairStep env) ps₀ = Except.ok ps ∧
      ∀ q, getHeader m q = lastValue ps q := by
  induction headers generalizing m₀ ps₀ with
  | nil =>
    simp only [List.foldlM, Pure.pure, Except.pure] at hm
    injection hm with hm
    subst hm
    exact ⟨ps₀, by simp [List.foldlM, Pure.pure, Except.pure], inv⟩
  | cons h rest ih =>
    simp only [List.foldlM, Bind.bind, Except.bind] at hm ⊢
    by_cases hsw : startsWithChar '@' h = true
    · unfold addHeaderStep at hm
      rw [if_pos hsw] at hm
      cases hfile : add_headers_from_file env m₀ (dropFirstChar h) with
      | error e => rw [hfile] at hm; exact Except.noConfusion hm
      | ok m₁ =>
        rw [hfile] at hm
        simp only at hm
        obtain ⟨fps, hfps, hinv₁⟩ :=
          add_headers_from_file_pairs env (dropFirstChar h) m₀ ps₀ inv m₁ hfile
        obtain ⟨ps, hps, hinv⟩ := ih m₁ (ps₀ ++ fps) hinv₁ hm
        refine ⟨ps, ?_, hinv⟩
        have hstep : pairStep env ps₀ h = Except.ok (ps₀ ++ fps) := by
          unfold pairStep
          rw [if_pos hsw, hfps]
          rfl
        rw [hstep]
        simpa using hps
    · unfold addHeaderStep at hm
      rw [if_neg hsw] at hm
      cases hsp : splitOnChar '=' h with
      | nil => rw [hsp] at hm; exact Except.noConfusion hm
      | cons k tail =>
        cases htail : tail with
        | nil => rw [hsp, htail] at hm; exact Except.noConfusion hm
        | cons v tail2 =>
          cases htail2 : tail2 with
          | cons w tail3 =>
            rw [hsp, htail, htail2] at hm
            exact Except.noConfusion hm
          | nil =>
            rw [hsp, htail, htail2] at hm
            simp only at hm
            obtain ⟨ps, hps, hinv⟩ := ih (insertHeader m₀ k (HeaderVal.plain v))
              (ps₀ ++ [(k, HeaderVal.plain v)])
              (inv_insert m₀ ps₀ k (HeaderVal.plain v) inv) hm
            refine ⟨ps, ?_, hinv⟩
            have hstep : pairStep env ps₀ h
                = Except.ok (ps₀ ++ [(k, HeaderVal.plain v)]) := by
              unfold pairStep
              rw [if_neg hsw, hsp, htail, htail2]
            rw [hstep]
            simpa using hps

/-! ### Claim theorems -/

/-- C1: the claim says the client never follows redirects exactly when
the `--no-redirects` flag is set.  The code at `lib.rs:179-181` tests
`!args.redirects`, so the flag is inverted: with the flag set
(`redirects = true`, doc comment "don't follow redirects") the client
keeps the default follow-redirects policy, and with the flag absent it
never follows a redirect.  This theorem evaluates `build_client` at both
flag values and exhibits the inversion. -/
theorem build_client_redirect_flag_inverted :
    build_client envBase { argsDefault with redirects := true }
      = Except.ok { user_agent := USER_AGENT_DEFAULT,
                    redirect_policy := RedirectPolicy.followDefault,
                    http2_prior_knowledge := false, proxy := none }
    ∧ build_client envBase { argsDefault with redirects := false }
      = Except.ok { user_agent := USER_AGENT_DEFAULT,
                    redirect_policy := RedirectPolicy.noFollow,
                    http2_prior_knowledge := false, proxy := none } := by
  exact ⟨rfl, rfl⟩

/-- C9: `parse_method` never returns an error, is case-insensitive
(tokens with the same uppercasing parse identically), always lands in
the six enumerated methods, resolves every unrecognized token to `GET`,
and maps each recognized token to its method. -/
theorem parse_method_total_case_insensitive_fallback (s : String) :
    (∃ m, parse_method s = Except.ok m)
    ∧ (∀ s', toUppercase s = toUppercase s' → parse_method s = parse_method s')
    ∧ (∀ m, parse_method s = Except.ok m →
        m ∈ [Method.GET, Method.HEAD, Method.POST, Method.PUT, Method.PATCH, Method.DELETE])
    ∧ (toUppercase s ∉ (["GET", "HEAD", "POST", "PUT", "PATCH", "DELETE"] : List String) →
        parse_method s = Except.ok Method.GET)
    ∧ (toUppercase s = "GET" → parse_method s = Except.ok Method.GET)
    ∧ (toUppercase s = "HEAD" → parse_method s = Except.ok Method.HEAD)
    ∧ (toUppercase s = "POST" → parse_method s = Except.ok Method.POST)
    ∧ (toUppercase s = "PUT" → parse_method s = Except.ok Method.PUT)
    ∧ (toUppercase s = "PATCH" → parse_method s = Except.ok Method.PATCH)
    ∧ (toUppercase s = "DELETE" → parse_method s = Except.ok Method.DELETE) := by
  refine ⟨⟨_, rfl⟩, ?_, ?_, ?_, ?_, ?_, ?_, ?_, ?_, ?_⟩
  · intro s' h
    simp only [parse_method]
    rw [h]
  · intro m hm
    simp only [parse_method] at hm
    split_ifs at hm <;> simp only [Except.ok.injEq] at hm <;> subst hm <;> simp
  · intro hns
    simp only [parse_method]
    split_ifs with h1 h2 h3 h4 h5 h6
    · rfl
    · exact absurd (by simp [h2]) hns
    · exact absurd (by simp [h3]) hns
    · exact absurd (by simp [h4]) hns
    · exact absurd (by simp [h5]) hns
    · exact absurd (by simp [h6]) hns
    · rfl
  · intro h; simp [parse_method, h]
  · intro h; simp [parse_method, h]
  · intro h; simp [parse_method, h]
  · intro h; simp [parse_method, h]
  · intro h; simp [parse_method, h]
  · intro h; simp [parse_method, h]

/-- C9 witness: the unrecognized token `"pur"` resolves to `GET`, and
the mixed-case token `"DeLeTe"` resolves to `DELETE`. -/
theorem parse_method_total_case_insensitive_fallback_witness :
    parse_method "pur" = Except.ok Method.GET
    ∧ parse_method "DeLeTe" = Except.ok Method.DELETE := by
  constructor
  · exact (parse_method_total_case_insensitive_fallback "pur").2.2.2.1 (by decide)
  · exact (parse_method_total_case_insensitive_fallback
      "DeLeTe").2.2.2.2.2.2.2.2.2 (by decide)

/-- C5: with `debug` set (and the client and the request building
successfully), `run` returns success with exactly the diagnostic dump as
output and no network call; the dump contains the method, the resolved
URL, every header, and the timeout when one is set. -/
theorem run_debug_no_network (env : Env) (args : Args) (hdbg : args.debug = true)
    (c : Client) (hc : build_client env args = Except.ok c)
    (req : Request) (hr : build_request env args = Except.ok req) :
    run env args = Except.ok { output := requestDump req, networkCalled := false }
    ∧ OutEvent.methodLine req.method ∈ requestDump req
    ∧ OutEvent.urlLine req.url ∈ requestDump req
    ∧ (∀ kv ∈ req.headers, OutEvent.headerLine kv.1 kv.2 ∈ requestDump req)
    ∧ (∀ t, req.timeout = some t → OutEvent.timeoutLine t ∈ requestDump req) := by
  refine ⟨?_, ?_, ?_, ?_, ?_⟩
  · simp [run, hc, hr, hdbg, Bind.bind, Except.bind]
  · simp [requestDump]
  · simp [requestDump]
  · intro kv hkv
    unfold requestDump
    refine List.mem_append_left _ (List.mem_append_left _ (List.mem_append_right _ ?_))
    exact List.mem_map_of_mem _ hkv
  · intro t ht
    unfold requestDump
    refine List.mem_append_left _ (List.mem_append_right _ ?_)
    simp [ht]

/-- The request built from `url=https://example.com` alone. -/
def reqExample : Request :=
  { method := Method.GET, url := "https://example.com", headers := [],
    timeout := none, body := none }

/-- C5 witness: `url=https://example.com, debug=true` gives a successful
run whose output is the diagnostic dump, with no network call. -/
theorem run_debug_no_network_witness :
    run envBase { argsDefault with url := "https://example.com", debug := true }
      = Except.ok { output := requestDump reqExample, networkCalled := false } :=
  (run_debug_no_network envBase
    { argsDefault with url := "https://example.com", debug := true }
    rfl _ rfl _ rfl).1

/-- A world whose response body is not valid JSON. -/
def envNotJson : Env := { envBase with responseBody := "not json" }

/-- C2 counterexample: the claim says a JSON-parse failure during
pretty-printing is locally recovered and the run completes successfully.
The code (`lib.rs:158`) parses with
`serde_json::from_reader(&mut data)?`, so the parse failure propagates:
with `pretty_print` set and a non-JSON body, `run` returns an error. -/
theorem run_pretty_print_parse_failure_errors :
    run envNotJson { argsDefault with url := "https://example.com", pretty_print := true }
      = Except.error ("invalid json: " ++ "not json") := rfl

/-- C2 amended: when pretty-printing is requested and the response body
fails to parse as JSON, the parse error propagates and `run` returns an
error — there is no raw-text fallback for a parse failure (the fallback
arm only covers re-serialization of the already parsed value, which
cannot fail). -/
theorem run_pretty_print_parse_failure_propagates (env : Env) (args : Args)
    (hdbg : args.debug = false) (hdl : args.download = none)
    (hpp : args.pretty_print = true)
    (hparse : env.parseJson env.responseBody = none)
    (c : Client) (hc : build_client env args = Except.ok c)
    (req : Request) (hr : build_request env args = Except.ok req)
    (hex : env.executeOk = true) :
    run env args = Except.error ("invalid json: " ++ env.responseBody) := by
  simp [run, hc, hr, hdbg, hdl, hpp, hparse, hex, Bind.bind, Except.bind]

/-- C2 amended witness: a non-JSON body under `--pp` makes the whole
invocation fail. -/
theorem run_pretty_print_parse_failure_propagates_witness :
    run envNotJson { argsDefault with url := "https://example.com", pretty_print := true }
      = Except.error ("invalid json: " ++ "not json") :=
  run_pretty_print_parse_failure_propagates envNotJson
    { argsDefault with url := "https://example.com", pretty_print := true }
    rfl rfl rfl rfl _ rfl _ rfl rfl

/-- C3 counterexample: the claim says the password is the entire
remainder after the first colon, so `"a:b:c"` would give password
`"b:c"`.  The code (`lib.rs:217-223`) collects `split(':')` and uses
only parts `[0]` and `[1]`, so the password is `"b"` — the text after
the second colon is dropped. -/
theorem basic_auth_remainder_dropped :
    Except.map (fun r => getHeader r.headers "authorization")
        (build_request envBase
          { argsDefault with url := "https://example.com", basic := some "a:b:c" })
      = Except.ok (some (HeaderVal.basicAuth "a" (some "b")))
    ∧ Except.map (fun r => getHeader r.headers "authorization")
        (build_request envBase
          { argsDefault with url := "https://example.com", basic := some "a:b:c" })
      ≠ Except.ok (some (HeaderVal.basicAuth "a" (some "b:c"))) := by
  have h : Except.map (fun r => getHeader r.headers "authorization")
      (build_request envBase
        { argsDefault with url := "https://example.com", basic := some "a:b:c" })
      = Except.ok (some (HeaderVal.basicAuth "a" (some "b"))) := rfl
  refine ⟨h, ?_⟩
  rw [h]
  intro hc
  simp only [Except.ok.injEq, Option.some.injEq, HeaderVal.basicAuth.injEq] at hc
  exact absurd hc.2 (by decide)

/-- C3 amended: `build_request` splits the basic-auth string on every
colon; the user is the text before the first colon and the password is
the text between the first and second colon (anything after a second
colon is dropped); a string with no colon fails with a malformed-auth
error. -/
theorem basic_auth_first_two_segments (env : Env) (args : Args) (b : String)
    (hb : args.basic = some b)
    (hurl : env.urlValid args.url = true)
    (hh : args.headers = none) (hc : args.cookies = none)
    (hbe : args.bearer = none) (hd : args.data = none) (hf : args.form = none) :
    (∀ u p rest, splitOnChar ':' b = u :: p :: rest →
      Except.map (fun r => getHeader r.headers "authorization")
          (build_request env args)
        = Except.ok (some (HeaderVal.basicAuth u (some p))))
    ∧ ((splitOnChar ':' b).length < 2 →
      build_request env args = Except.error ("malformed basic auth: " ++ b)) := by
  constructor
  · intro u p rest hsplit
    have hlen : ¬ (rest.length + 1 + 1 < 2) := by omega
    simp [build_request, hurl, add_headers, hh, apply_cookies, hc, apply_basic, hb,
      hsplit, hlen, apply_bearer, hbe, apply_data, hd, apply_form, hf,
      initBuilder, applyHeaders, basic_auth, buildFinal_headers, apply_timeout_headers,
      getHeader_insert_self, Except.map, Bind.bind, Except.bind]
  · intro hlen
    simp [build_request, hurl, add_headers, hh, apply_cookies, hc, apply_basic, hb,
      hlen, Bind.bind, Except.bind]

/-- C3 amended witness: `"user:pa:ss"` yields Basic credentials
`user` / `pa`, and `"nocolon"` is malformed basic auth. -/
theorem basic_auth_first_two_segments_witness :
    Except.map (fun r => getHeader r.headers "authorization")
        (build_request envBase
          { argsDefault with url := "https://example.com", basic := some "user:pa:ss" })
      = Except.ok (some (HeaderVal.basicAuth "user" (some "pa")))
    ∧ build_request envBase
        { argsDefault with url := "https://example.com", basic := some "nocolon" }
      = Except.error ("malformed basic auth: " ++ "nocolon") := by
  constructor
  · exact (basic_auth_first_two_segments envBase
        { argsDefault with url := "https://example.com", basic := some "user:pa:ss" }
        "user:pa:ss" rfl rfl rfl rfl rfl rfl rfl).1 "user" "pa" ["ss"] (by decide)
  · exact (basic_auth_first_two_segments envBase
        { argsDefault with url := "https://example.com", basic := some "nocolon" }
        "nocolon" rfl rfl rfl rfl rfl rfl rfl).2 (by decide)

/-- C7: when both basic and bearer auth are configured, `build_request`
applies Basic first (`lib.rs:217-223`) and Bearer second
(`lib.rs:225-227`); since each inserts the `authorization` header, the
built request always carries the Bearer header. -/
theorem bearer_overwrites_basic (env : Env) (args : Args) (b t : String)
    (_hb : args.basic = some b) (ht : args.bearer = some t)
    (req : Request) (hr : build_request env args = Except.ok req) :
    getHeader req.headers "authorization" = some (HeaderVal.bearerAuth t) := by
  unfold build_request at hr
  by_cases hurl : env.urlValid args.url = false
  · rw [if_pos hurl] at hr
    cases hr
  · rw [if_neg hurl] at hr
    simp only [bindOkIff] at hr
    obtain ⟨hs, hhs, hr⟩ := hr
    obtain ⟨b2, hb2, hr⟩ := hr
    obtain ⟨b3, hb3, hr⟩ := hr
    obtain ⟨b6, hb6, hr⟩ := hr
    obtain ⟨b7, hb7, hr⟩ := hr
    injection hr with hr
    subst hr
    rw [buildFinal_headers, apply_form_headers env args _ _ hb7,
        apply_data_headers env args _ _ hb6, apply_timeout_headers]
    have hbe : (apply_bearer args b3).headers
        = insertHeader b3.headers "authorization" (HeaderVal.bearerAuth t) := by
      simp [apply_bearer, ht, bearer_auth]
    rw [hbe, getHeader_insert_self]

/-- The request built from `basic "alice:secret"` and `bearer "tok123"`
together: the header map holds only the Bearer authorization. -/
def reqBearer : Request :=
  { method := Method.GET, url := "https://example.com",
    headers := [("authorization", HeaderVal.bearerAuth "tok123")],
    timeout := none, body := none }

/-- C7 witness: with `basic "alice:secret"` and `bearer "tok123"`, the
built request's Authorization header is the Bearer one. -/
theorem bearer_overwrites_basic_witness :
    getHeader reqBearer.headers "authorization"
      = some (HeaderVal.bearerAuth "tok123") :=
  bearer_overwrites_basic envBase
    { argsDefault with
      url := "https://example.com",
      basic := some "alice:secret",
      bearer := some "tok123" }
    "alice:secret" "tok123" rfl rfl reqBearer rfl

/-- C6: when `form` is set and parses to a JSON object, the built
request's body is the multipart form consisting, in field order, of a
file part for each string value that is an existing path and a text
part for each other string value, with non-string values skipped
(`formPartsSpec`); this holds whatever `data` was, so the multipart
payload replaces any body previously set from `data`. -/
theorem form_multipart_replaces_body (env : Env) (args : Args) (fd : String)
    (fields : List (String × Json))
    (hf : args.form = some fd)
    (hjson : env.parseJson fd = some (Json.obj fields))
    (req : Request) (hr : build_request env args = Except.ok req) :
    req.body = some (Body.multipartForm (formPartsSpec env fields))
    ∧ (∀ k v, (k, Json.str v) ∈ fields → env.pathExists v = true →
        Part.filePart k v ∈ formPartsSpec env fields)
    ∧ (∀ k v, (k, Json.str v) ∈ fields → env.pathExists v = false →
        Part.textPart k v ∈ formPartsSpec env fields) := by
  refine ⟨?_, ?_, ?_⟩
  · exact build_request_body_of_form env args fd (Json.obj fields) hf hjson
      (formPartsSpec env fields) (formFromJson_obj env fields) req hr
  · intro k v hmem hex
    unfold formPartsSpec
    refine List.mem_filterMap.mpr ⟨(k, Json.str v), hmem, ?_⟩
    simp [Json.asStr, hex]
  · intro k v hmem hex
    unfold formPartsSpec
    refine List.mem_filterMap.mpr ⟨(k, Json.str v), hmem, ?_⟩
    simp [Json.asStr, hex]

/-- The world of the spec's form scenario: the form string parses to
`{"file":"/tmp/exists.txt","note":"hello","n":3}` and only
`/tmp/exists.txt` exists on disk. -/
def envForm : Env :=
  { envBase with
    parseJson := fun s =>
      if s = "formjson" then
        some (Json.obj [("file", Json.str "/tmp/exists.txt"),
                        ("note", Json.str "hello"),
                        ("n", Json.num 3)])
      else none,
    pathExists := fun p => p = "/tmp/exists.txt" }

/-- The configuration of the form scenario: a literal `data` body plus a
`form` string. -/
def argsForm : Args :=
  { argsDefault with
    url := "https://example.com",
    data := some "ignored",
    form := some "formjson" }

/-- The request the form scenario builds: the multipart body replaced
the `data` body. -/
def reqForm : Request :=
  { method := Method.GET, url := "https://example.com", headers := [],
    timeout := none,
    body := some (Body.multipartForm
      [Part.filePart "file" "/tmp/exists.txt", Part.textPart "note" "hello"]) }

/-- C6 witness: in the spec's scenario the built body is one file part
and one text part — the non-string value is skipped and the `data` body
is discarded. -/
theorem form_multipart_replaces_body_witness :
    reqForm.body = some (Body.multipartForm
      [Part.filePart "file" "/tmp/exists.txt", Part.textPart "note" "hello"]) :=
  (form_multipart_replaces_body envForm argsForm "formjson"
    [("file", Json.str "/tmp/exists.txt"), ("note", Json.str "hello"),
     ("n", Json.num 3)]
    rfl rfl reqForm rfl).1

/-- C10: syntactically valid JSON whose top level is not an object is
silently accepted: a header file parsing to a non-object adds no
headers and raises no error, and a form string parsing to a non-object
yields a request whose body is the empty multipart form.  By contrast a
JSON parse failure aborts: in a header file it fails
`add_headers_from_file`, and a form string that does not parse means
`build_request` never succeeds. -/
theorem non_object_json_tolerated (env : Env) (m : List (String × HeaderVal))
    (path contents : String) (j : Json)
    (hread : env.readFileString path = some contents)
    (hparse : env.parseJson contents = some j) (hno : j.asObject = none)
    (args : Args) (fd : String) (jf : Json)
    (hform : args.form = some fd)
    (hparsef : env.parseJson fd = some jf) (hnof : jf.asObject = none)
    (req : Request) (hr : build_request env args = Except.ok req)
    (path2 contents2 : String)
    (hread2 : env.readFileString path2 = some contents2)
    (hparse2 : env.parseJson contents2 = none)
    (args3 : Args) (fd3 : String)
    (hform3 : args3.form = some fd3) (hparse3 : env.parseJson fd3 = none) :
    add_headers_from_file env m path = Except.ok m
    ∧ req.body = some (Body.multipartForm [])
    ∧ add_headers_from_file env m path2
        = Except.error ("bad json format from header file: " ++ path2)
    ∧ ∀ r, build_request env args3 ≠ Except.ok r := by
  refine ⟨?_, ?_, ?_, ?_⟩
  · simp [add_headers_from_file, hread, hparse, hno, Bind.bind, Except.bind]
  · exact build_request_body_of_form env args fd jf hform hparsef []
      (formFromJson_nonObject env jf hnof) req hr
  · simp [add_headers_from_file, hread2, hparse2, Bind.bind, Except.bind]
  · intro r
    exact build_request_form_parse_failure env args3 fd3 hform3 hparse3 r

/-- A world for the non-object JSON scenarios: header file `hfile`
holds the JSON array `[1]`, header file `hbad` holds text that is not
JSON, and the form string `fstr` parses to the JSON string `"x"`. -/
def envNonObj : Env :=
  { envBase with
    readFileString := fun p =>
      if p = "hfile" then some "[1]"
      else if p = "hbad" then some "oops" else none,
    parseJson := fun s =>
      if s = "[1]" then some (Json.arr [Json.num 1])
      else if s = "fstr" then some (Json.str "x") else none }

/-- A configuration whose form string parses to a non-object. -/
def argsNonObjForm : Args :=
  { argsDefault with url := "https://example.com", form := some "fstr" }

/-- A configuration whose form string does not parse as JSON. -/
def argsBadForm : Args :=
  { argsDefault with url := "https://example.com", form := some "nojson" }

/-- The request `argsNonObjForm` builds: an empty multipart body. -/
def reqEmptyForm : Request :=
  { method := Method.GET, url := "https://example.com", headers := [],
    timeout := none, body := some (Body.multipartForm []) }

/-- C10 witness: the array-valued header file adds nothing, the
string-valued form gives an empty multipart body, the unparsable header
file errors, and the unparsable form never builds. -/
theorem non_object_json_tolerated_witness :
    add_headers_from_file envNonObj [] "hfile" = Except.ok []
    ∧ reqEmptyForm.body = some (Body.multipartForm [])
    ∧ add_headers_from_file envNonObj [] "hbad"
        = Except.error ("bad json format from header file: " ++ "hbad")
    ∧ build_request envNonObj argsBadForm ≠ Except.ok reqEmptyForm := by
  have h := non_object_json_tolerated envNonObj [] "hfile" "[1]"
    (Json.arr [Json.num 1]) rfl rfl rfl argsNonObjForm "fstr" (Json.str "x")
    rfl rfl rfl reqEmptyForm rfl "hbad" "oops" rfl rfl argsBadForm "nojson" rfl rfl
  exact ⟨h.1, h.2.1, h.2.2.1, h.2.2.2 reqEmptyForm⟩

/-- C8: for any header list mixing inline entries and file references,
processing happens in declared order and every insertion replaces any
earlier entry with the same (case-sensitively compared) key: whenever
`add_headers` succeeds, the resulting map answers every key lookup with
the value of that key's last occurrence in the flattened insertion
sequence (`headerPairs`, which expands file references in place). -/
theorem add_headers_last_occurrence_wins (env : Env) (headers : List String)
    (m : List (String × HeaderVal))
    (hm : add_headers env (some headers) = Except.ok m) :
    ∃ ps, headerPairs env headers = Except.ok ps ∧
      ∀ k, getHeader m k = lastValue ps k :=
  headersFold_inv env headers [] [] (fun _ => rfl) m hm

/-- A world with one header file `hf` holding
`{"a":"2","c":"9"}`. -/
def envHdr : Env :=
  { envBase with
    readFileString := fun p => if p = "hf" then some "hjson" else none,
    parseJson := fun s =>
      if s = "hjson" then
        some (Json.obj [("a", Json.str "2"), ("c", Json.str "9")])
      else none }

/-- C8 witness: for the mixed list `["a=1", "b=3", "@hf", "b=4"]` the
final map holds `a ↦ 2` (overwritten by the file), `c ↦ 9`, and
`b ↦ 4` (overwritten by the later inline entry) — each key's last
occurrence in the flattened sequence. -/
theorem add_headers_last_occurrence_wins_witness :
    ∃ ps, headerPairs envHdr ["a=1", "b=3", "@hf", "b=4"] = Except.ok ps ∧
      ∀ k, getHeader [("a", HeaderVal.plain "2"), ("c", HeaderVal.plain "9"),
        ("b", HeaderVal.plain "4")] k = lastValue ps k :=
  add_headers_last_occurrence_wins envHdr ["a=1", "b=3", "@hf", "b=4"]
    [("a", HeaderVal.plain "2"), ("c", HeaderVal.plain "9"),
     ("b", HeaderVal.plain "4")] rfl

/-- C4 counterexample: the claim says an inline header splits on the
first `=` with the remainder as value, so `"a=b=c"` would give key `a`
and value `b=c`.  The code (`lib.rs:291-294`) collects `split('=')` and
rejects anything whose part count is not exactly 2, so `"a=b=c"` fails
with a malformed-header error instead. -/
theorem add_headers_two_equals_rejected :
    add_headers envBase (some ["a=b=c"])
      = Except.error ("malformed header: " ++ toString ["a", "b", "c"])
    ∧ add_headers envBase (some ["a=b=c"])
      ≠ Except.ok [("a", HeaderVal.plain "b=c")] := by
  have h : add_headers envBase (some ["a=b=c"])
      = Except.error ("malformed header: " ++ toString ["a", "b", "c"]) := rfl
  refine ⟨h, ?_⟩
  rw [h]
  intro hc
  cases hc

/-- C4 amended: an inline header must contain exactly one `=`: then the
key is the part before it and the value the part after it; a string with
zero `=` or with two or more `=` fails with a malformed-header error. -/
theorem add_headers_exactly_one_equals (env : Env) (h : String)
    (hno : startsWithChar '@' h = false) :
    (∀ k v, splitOnChar '=' h = [k, v] →
      add_headers env (some [h]) = Except.ok [(k, HeaderVal.plain v)])
    ∧ ∀ parts, splitOnChar '=' h = parts → parts.length ≠ 2 →
      add_headers env (some [h])
        = Except.error ("malformed header: " ++ toString parts) := by
  constructor
  · intro k v hkv
    simp [add_headers, addHeaderStep, hno, hkv, insertHeader, List.foldlM,
      Bind.bind, Except.bind, Pure.pure, Except.pure]
  · intro parts hp hlen
    have hstep : addHeaderStep env [] h
        = Except.error ("malformed header: " ++ toString parts) := by
      unfold addHeaderStep
      simp only [hno, Bool.false_eq_true, if_false, hp]
      match parts, hlen with
      | [], _ => rfl
      | [a], _ => rfl
      | [a, b], hlen => exact absurd rfl hlen
      | a :: b :: c :: rest, _ => rfl
    simp [add_headers, List.foldlM, hstep, Bind.bind, Except.bind]

/-- C4 amended witness: `"Accept=text/html"` becomes the header
`Accept → text/html`, and `"Accept"` (no `=`) is a malformed header. -/
theorem add_headers_exactly_one_equals_witness :
    add_headers envBase (some ["Accept=text/html"])
      = Except.ok [("Accept", HeaderVal.plain "text/html")]
    ∧ add_headers envBase (some ["Accept"])
      = Except.error ("malformed header: " ++ toString ["Accept"]) := by
  constructor
  · exact (add_headers_exactly_one_equals envBase "Accept=text/html"
      (by decide)).1 "Accept" "text/html" (by decide)
  · exact (add_headers_exactly_one_equals envBase "Accept"
      (by decide)).2 ["Accept"] (by decide) (by decide)

end Rq
